import Mathlib

/-!
Verification of the SQL schema differ, step linearizer and destructive-change
classifier of the migration engine.

The data model (schemas, tables, columns, indexes, foreign keys, enums) and the
migration step types live in crates whose sources are not part of this tree
(`sql-schema-describer`, `sql_migration.rs`, the differ submodules `table.rs`,
`column.rs`, `enums.rs`, `index.rs`); those are modelled from the specification
document. The differ driver (`sql_schema_differ.rs`) and the Postgres
destructive-change checker (`postgres.rs`) are translated directly from the
source.
-/

/-- Modelled from the spec: canonical column type family
(Int/Float/Boolean/String/DateTime/Binary/Json/Uuid/Enum(name)/Unsupported(raw)). -/
inductive ColumnTypeFamily where
  | int
  | float
  | boolean
  | string
  | dateTime
  | binary
  | json
  | uuid
  | enum (name : String)
  | unsupported (raw : String)
  deriving DecidableEq

/-- Modelled from the spec: column arity Required/Nullable/List. -/
inductive ColumnArity where
  | required
  | nullable
  | list
  deriving DecidableEq

def ColumnArity.is_nullable : ColumnArity → Bool
  | .nullable => true
  | _ => false

def ColumnArity.is_required : ColumnArity → Bool
  | .required => true
  | _ => false

def ColumnArity.is_list : ColumnArity → Bool
  | .list => true
  | _ => false

/-- Modelled from the spec: optional column default
(Value / Now / DbGenerated(expr) / Sequence(expr)); constructor names follow
the `DefaultValue` enum of `sql-schema-describer`. -/
inductive DefaultValue where
  | VALUE (v : String)
  | NOW
  | DBGENERATED (expr : String)
  | SEQUENCE (expr : String)
  deriving DecidableEq

/-- Modelled from the spec: a column type descriptor carries the canonical
family and the arity. -/
structure ColumnType where
  family : ColumnTypeFamily
  arity : ColumnArity
  deriving DecidableEq

/-- Modelled from the spec: a column has a name, a type descriptor, an optional
default and an auto-increment flag. -/
structure Column where
  name : String
  tpe : ColumnType
  default : Option DefaultValue
  auto_increment : Bool
  deriving DecidableEq

/-- Modelled from the spec: a primary key is an ordered column list plus an
optional constraint name. -/
structure PrimaryKey where
  columns : List String
  constraint_name : Option String
  deriving DecidableEq

/-- Modelled from the spec: index type Unique/Normal. -/
inductive IndexType where
  | unique
  | normal
  deriving DecidableEq

/-- Modelled from the spec: an index has a name, an ordered column list and a
type. -/
structure Index where
  name : String
  columns : List String
  tpe : IndexType
  deriving DecidableEq

/-- Modelled from the spec: foreign-key on-delete action. -/
inductive ForeignKeyAction where
  | noAction
  | restrict
  | cascade
  | setNull
  | setDefault
  deriving DecidableEq

/-- Modelled from the spec: a foreign key has an optional constraint name, an
ordered constrained-column list, a referenced table name and an ordered
referenced-column list, plus an on-delete action. -/
structure ForeignKey where
  constraint_name : Option String
  columns : List String
  referenced_table : String
  referenced_columns : List String
  on_delete_action : ForeignKeyAction
  deriving DecidableEq

/-- Modelled from the spec: a table has a name, ordered columns, indexes, an
optional single primary key and foreign keys. Field names follow
`sql_schema_describer::Table` as used by the differ source
(`table.indices`, `table.foreign_keys`, `table.primary_key`). -/
structure Table where
  name : String
  columns : List Column
  indices : List Index
  primary_key : Option PrimaryKey
  foreign_keys : List ForeignKey
  deriving DecidableEq

/-- Modelled from the spec: an enum has a name and an ordered list of string
variants. -/
structure Enum where
  name : String
  values : List String
  deriving DecidableEq

/-- Modelled from the spec: a schema snapshot is an ordered collection of
tables and enums (sequences play no role in the differ logic verified here). -/
structure SqlSchema where
  tables : List Table
  enums : List Enum
  deriving DecidableEq

/-- Modelled from the spec: `SqlSchema::has_table` — whether a table with the
given name exists in the snapshot. -/
def SqlSchema.has_table (schema : SqlSchema) (name : String) : Bool :=
  schema.tables.any (fun t => t.name == name)

/-- Modelled from the spec: the SQL families the engine distinguishes. -/
inductive SqlFamily where
  | postgres
  | mysql
  | sqlite
  deriving DecidableEq

def SqlFamily.is_mysql : SqlFamily → Bool
  | .mysql => true
  | _ => false

/-- Modelled from the spec: name of the migration-history table, which must
never be diffed (`sql_migration_persistence::MIGRATION_TABLE_NAME`; the exact
string is immaterial to every property proved below). -/
def MIGRATION_TABLE_NAME : String := "_Migration"

/-- `DiffingOptions` from `sql_schema_differ.rs`: the ignored-table regex set
is modelled as a boolean predicate on table names. -/
structure DiffingOptions where
  is_mariadb : Bool
  sql_family : SqlFamily
  ignore_tables : String → Bool

/-- `POSTGRES_IGNORED_TABLES` from `sql_schema_differ.rs`: the case-insensitive
anchored regexes `^spatial_ref_sys$` and `^geometry_columns$`. -/
def POSTGRES_IGNORED_TABLES (name : String) : Bool :=
  name.toLower == "spatial_ref_sys" || name.toLower == "geometry_columns"

/- Migration step records (`sql_migration.rs`, modelled from the spec's step
catalogue and the constructors used in `sql_schema_differ.rs`). -/

/-- Modelled from the spec: CreateTable carries the full next-side table. -/
structure CreateTable where
  table : Table
  deriving DecidableEq

/-- Modelled from the spec: DropTable carries the table name. -/
structure DropTable where
  name : String
  deriving DecidableEq

/-- Modelled from the spec: the sub-changes of an AlterTable. -/
inductive TableChange where
  | DropPrimaryKey (constraint_name : Option String)
  | DropColumn (name : String)
  | AddColumn (column : Column)
  | AlterColumn (name : String) (column : Column)
  | AddPrimaryKey (columns : List String)
  deriving DecidableEq

/-- Modelled from the spec: AlterTable carries the next-side table and the
ordered change list. -/
structure AlterTable where
  table : Table
  changes : List TableChange
  deriving DecidableEq

/-- Modelled from the spec: CreateIndex carries the table name and the index. -/
structure CreateIndex where
  table : String
  index : Index
  deriving DecidableEq

/-- Modelled from the spec: DropIndex carries the table name and index name. -/
structure DropIndex where
  table : String
  name : String
  deriving DecidableEq

/-- Modelled from the spec: AlterIndex is a rename. -/
structure AlterIndex where
  table : String
  index_name : String
  index_new_name : String
  deriving DecidableEq

/-- Modelled from the spec: AddForeignKey carries the table name and the
foreign key. -/
structure AddForeignKey where
  table : String
  foreign_key : ForeignKey
  deriving DecidableEq

/-- Modelled from the spec: DropForeignKey carries the table name and the
constraint name. -/
structure DropForeignKey where
  table : String
  constraint_name : String
  deriving DecidableEq

/-- Modelled from the spec: CreateEnum carries the name and variants. -/
structure CreateEnum where
  name : String
  variants : List String
  deriving DecidableEq

/-- Modelled from the spec: DropEnum carries the name. -/
structure DropEnum where
  name : String
  deriving DecidableEq

/-- Modelled from the spec: AlterEnum carries exactly the created and dropped
variant lists. -/
structure AlterEnum where
  name : String
  created_variants : List String
  dropped_variants : List String
  deriving DecidableEq

/-- Modelled from the spec: `AlterEnum::is_empty` — both variant lists are
empty. -/
def AlterEnum.is_empty (step : AlterEnum) : Bool :=
  step.created_variants.isEmpty && step.dropped_variants.isEmpty

/-- `SqlSchemaDiff` from `sql_schema_differ.rs`. -/
structure SqlSchemaDiff where
  add_foreign_keys : List AddForeignKey
  drop_foreign_keys : List DropForeignKey
  drop_tables : List DropTable
  create_tables : List CreateTable
  alter_tables : List AlterTable
  create_indexes : List CreateIndex
  drop_indexes : List DropIndex
  alter_indexes : List AlterIndex
  create_enums : List CreateEnum
  drop_enums : List DropEnum
  alter_enums : List AlterEnum
  deriving DecidableEq

/-- Modelled from the spec: the tagged union of migration steps
(`SqlMigrationStep` in `sql_migration.rs`). -/
inductive SqlMigrationStep where
  | CreateEnum (step : CreateEnum)
  | AlterEnum (step : AlterEnum)
  | DropIndex (step : DropIndex)
  | DropForeignKey (step : DropForeignKey)
  | CreateTable (step : CreateTable)
  | AlterTable (step : AlterTable)
  | CreateIndex (step : CreateIndex)
  | AddForeignKey (step : AddForeignKey)
  | DropTable (step : DropTable)
  | DropEnum (step : DropEnum)
  | AlterIndex (step : AlterIndex)
  deriving DecidableEq

/-- Modelled from the spec: `wrap_as_step` maps a list of records into tagged
steps. -/
def wrap_as_step {α : Type} (steps : List α) (wrap : α → SqlMigrationStep) :
    List SqlMigrationStep :=
  steps.map wrap

/-- `SqlSchemaDiff::into_steps`, translated from `sql_schema_differ.rs`
lines 78–95: the fixed concatenation order of the step kinds. -/
def SqlSchemaDiff.into_steps (diff : SqlSchemaDiff) : List SqlMigrationStep :=
  wrap_as_step diff.create_enums SqlMigrationStep.CreateEnum ++
  wrap_as_step diff.alter_enums SqlMigrationStep.AlterEnum ++
  wrap_as_step diff.drop_indexes SqlMigrationStep.DropIndex ++
  wrap_as_step diff.drop_foreign_keys SqlMigrationStep.DropForeignKey ++
  wrap_as_step diff.create_tables SqlMigrationStep.CreateTable ++
  wrap_as_step diff.alter_tables SqlMigrationStep.AlterTable ++
  wrap_as_step diff.create_indexes SqlMigrationStep.CreateIndex ++
  wrap_as_step diff.add_foreign_keys SqlMigrationStep.AddForeignKey ++
  wrap_as_step diff.drop_tables SqlMigrationStep.DropTable ++
  wrap_as_step diff.drop_enums SqlMigrationStep.DropEnum ++
  wrap_as_step diff.alter_indexes SqlMigrationStep.AlterIndex

/-- The position of a step's kind in the fixed linearization order. -/
def kindIndex : SqlMigrationStep → Nat
  | .CreateEnum _ => 0
  | .AlterEnum _ => 1
  | .DropIndex _ => 2
  | .DropForeignKey _ => 3
  | .CreateTable _ => 4
  | .AlterTable _ => 5
  | .CreateIndex _ => 6
  | .AddForeignKey _ => 7
  | .DropTable _ => 8
  | .DropEnum _ => 9
  | .AlterIndex _ => 10

lemma kindIndex_mem_wrap {α : Type} {l : List α} {wrap : α → SqlMigrationStep}
    {k : Nat} (hw : ∀ a, kindIndex (wrap a) = k) :
    ∀ s ∈ wrap_as_step l wrap, kindIndex s = k := by
  intro s hs
  rcases List.mem_map.mp hs with ⟨a, _, rfl⟩
  exact hw a

lemma pairwise_of_const_kind {k : Nat} :
    ∀ {l : List SqlMigrationStep}, (∀ s ∈ l, kindIndex s = k) →
      l.Pairwise (fun a b => kindIndex a ≤ kindIndex b) := by
  intro l
  induction l with
  | nil => intro _; exact .nil
  | cons x xs ih =>
      intro h
      refine .cons (fun y hy => ?_) (ih fun s hs => h s (List.mem_cons_of_mem _ hs))
      rw [h x (List.mem_cons_self x xs), h y (List.mem_cons_of_mem _ hy)]

/-- Prepending a block of steps whose kind index is `k` in front of an already
sorted suffix whose kind indexes are all greater than `k` keeps the step list
sorted by kind index. -/
lemma chain_block {k : Nat} {l₁ l₂ : List SqlMigrationStep}
    (h₁ : ∀ s ∈ l₁, kindIndex s = k)
    (hp : l₂.Pairwise (fun a b => kindIndex a ≤ kindIndex b))
    (hg : ∀ s ∈ l₂, k < kindIndex s) :
    (l₁ ++ l₂).Pairwise (fun a b => kindIndex a ≤ kindIndex b) ∧
      ∀ s ∈ l₁ ++ l₂, k ≤ kindIndex s := by
  constructor
  · refine List.pairwise_append.mpr ⟨pairwise_of_const_kind h₁, hp, ?_⟩
    intro a ha b hb
    rw [h₁ a ha]
    exact Nat.le_of_lt (hg b hb)
  · intro s hs
    rcases List.mem_append.mp hs with h | h
    · exact Nat.le_of_eq (h₁ s h).symm
    · exact Nat.le_of_lt (hg s h)

lemma into_steps_pairwise (diff : SqlSchemaDiff) :
    diff.into_steps.Pairwise (fun a b => kindIndex a ≤ kindIndex b) := by
  unfold SqlSchemaDiff.into_steps
  have b0 := @kindIndex_mem_wrap CreateEnum diff.create_enums
    SqlMigrationStep.CreateEnum 0 (fun _ => rfl)
  have b1 := @kindIndex_mem_wrap AlterEnum diff.alter_enums
    SqlMigrationStep.AlterEnum 1 (fun _ => rfl)
  have b2 := @kindIndex_mem_wrap DropIndex diff.drop_indexes
    SqlMigrationStep.DropIndex 2 (fun _ => rfl)
  have b3 := @kindIndex_mem_wrap DropForeignKey diff.drop_foreign_keys
    SqlMigrationStep.DropForeignKey 3 (fun _ => rfl)
  have b4 := @kindIndex_mem_wrap CreateTable diff.create_tables
    SqlMigrationStep.CreateTable 4 (fun _ => rfl)
  have b5 := @kindIndex_mem_wrap AlterTable diff.alter_tables
    SqlMigrationStep.AlterTable 5 (fun _ => rfl)
  have b6 := @kindIndex_mem_wrap CreateIndex diff.create_indexes
    SqlMigrationStep.CreateIndex 6 (fun _ => rfl)
  have b7 := @kindIndex_mem_wrap AddForeignKey diff.add_foreign_keys
    SqlMigrationStep.AddForeignKey 7 (fun _ => rfl)
  have b8 := @kindIndex_mem_wrap DropTable diff.drop_tables
    SqlMigrationStep.DropTable 8 (fun _ => rfl)
  have b9 := @kindIndex_mem_wrap DropEnum diff.drop_enums
    SqlMigrationStep.DropEnum 9 (fun _ => rfl)
  have b10 := @kindIndex_mem_wrap AlterIndex diff.alter_indexes
    SqlMigrationStep.AlterIndex 10 (fun _ => rfl)
  have c10 := chain_block b10 List.Pairwise.nil (by intro s hs; cases hs)
  rw [List.append_nil] at c10
  have c9 := chain_block b9 c10.1 (fun s hs => c10.2 s hs)
  have c8 := chain_block b8 c9.1 (fun s hs => c9.2 s hs)
  have c7 := chain_block b7 c8.1 (fun s hs => c8.2 s hs)
  have c6 := chain_block b6 c7.1 (fun s hs => c7.2 s hs)
  have c5 := chain_block b5 c6.1 (fun s hs => c6.2 s hs)
  have c4 := chain_block b4 c5.1 (fun s hs => c5.2 s hs)
  have c3 := chain_block b3 c4.1 (fun s hs => c4.2 s hs)
  have c2 := chain_block b2 c3.1 (fun s hs => c3.2 s hs)
  have c1 := chain_block b1 c2.1 (fun s hs => c2.2 s hs)
  have c0 := chain_block b0 c1.1 (fun s hs => c1.2 s hs)
  simpa only [List.append_assoc] using c0.1

/-- In a step list sorted by kind index, a step of a smaller kind index always
sits at a smaller position. -/
lemma pos_lt_of_kind_lt {l : List SqlMigrationStep}
    (hp : l.Pairwise (fun a b => kindIndex a ≤ kindIndex b))
    {i j : Nat} (hi : i < l.length) (hj : j < l.length) {ki kj : Nat}
    (hki : kindIndex (l.get ⟨i, hi⟩) = ki)
    (hkj : kindIndex (l.get ⟨j, hj⟩) = kj) (hlt : ki < kj) : i < j := by
  rcases Nat.lt_trichotomy i j with h | h | h
  · exact h
  · subst h
    rw [hki] at hkj
    omega
  · have := List.pairwise_iff_get.mp hp ⟨j, hj⟩ ⟨i, hi⟩ h
    rw [hki, hkj] at this
    omega

/-- C1: for every `SqlSchemaDiff`, the step list produced by `into_steps` is
grouped by step kind in the fixed order CreateEnum, AlterEnum, DropIndex,
DropForeignKey, CreateTable, AlterTable, CreateIndex, AddForeignKey, DropTable,
DropEnum, AlterIndex (kind indexes are nondecreasing along the list); in
particular every CreateTable step's index is smaller than every AddForeignKey
step's index, and every DropForeignKey step's index is smaller than every
DropTable step's index. -/
theorem C1_into_steps_grouped_by_kind (diff : SqlSchemaDiff) :
    diff.into_steps.Pairwise (fun a b => kindIndex a ≤ kindIndex b) ∧
    (∀ i j (hi : i < diff.into_steps.length) (hj : j < diff.into_steps.length),
      kindIndex (diff.into_steps.get ⟨i, hi⟩) = 4 →
      kindIndex (diff.into_steps.get ⟨j, hj⟩) = 7 → i < j) ∧
    (∀ i j (hi : i < diff.into_steps.length) (hj : j < diff.into_steps.length),
      kindIndex (diff.into_steps.get ⟨i, hi⟩) = 3 →
      kindIndex (diff.into_steps.get ⟨j, hj⟩) = 8 → i < j) := by
  refine ⟨into_steps_pairwise diff, ?_, ?_⟩
  · intro i j hi hj hki hkj
    exact pos_lt_of_kind_lt (into_steps_pairwise diff) hi hj hki hkj (by omega)
  · intro i j hi hj hki hkj
    exact pos_lt_of_kind_lt (into_steps_pairwise diff) hi hj hki hkj (by omega)

/-- A concrete diff exercising C1: one DropForeignKey, one CreateTable, one
AddForeignKey and one DropTable. -/
def sampleDiffC1 : SqlSchemaDiff where
  add_foreign_keys :=
    [⟨"t", ⟨some "fk1", ["a"], "u", ["id"], ForeignKeyAction.noAction⟩⟩]
  drop_foreign_keys := [⟨"t", "fk0"⟩]
  drop_tables := [⟨"old"⟩]
  create_tables := [⟨⟨"t", [], [], none, []⟩⟩]
  alter_tables := []
  create_indexes := []
  drop_indexes := []
  alter_indexes := []
  create_enums := []
  drop_enums := []
  alter_enums := []

/-- Witness for C1 at `sampleDiffC1`: its steps are
DropForeignKey, CreateTable, AddForeignKey, DropTable at positions 0..3. -/
theorem C1_witness : (1 : Nat) < 2 ∧ (0 : Nat) < 3 :=
  ⟨(C1_into_steps_grouped_by_kind sampleDiffC1).2.1 1 2 (by decide) (by decide)
      (by decide) (by decide),
    (C1_into_steps_grouped_by_kind sampleDiffC1).2.2 0 3 (by decide) (by decide)
      (by decide) (by decide)⟩

/- The differ proper. `tables_match`, `enums_match`, `foreign_keys_match` and
every `SqlSchemaDiffer` method below are translated from
`sql_schema_differ.rs`; the `TableDiffer` / enum-differ helpers are modelled
from the spec's Entity Matcher contract because `table.rs`, `column.rs`,
`enums.rs` and `index.rs` are not part of this tree. -/

/-- `tables_match` from `sql_schema_differ.rs`: tables match by exact name. -/
def tables_match (previous next : Table) : Bool :=
  previous.name == next.name

/-- `enums_match` from `sql_schema_differ.rs`: enums match by exact name. -/
def enums_match (previous next : Enum) : Bool :=
  previous.name == next.name

/-- Modelled from the spec: the constrained columns of a foreign key, resolved
against the owning table (`ForeignKeyRef::constrained_columns` of
`sql_schema_helpers`). -/
def constrained_columns (table : Table) (fk : ForeignKey) : List Column :=
  fk.columns.filterMap (fun name => table.columns.find? (fun col => col.name == name))

/-- `foreign_keys_match` from `sql_schema_differ.rs` lines 471–497: same
referenced table name, same referenced-column count, same constrained-column
count, and pointwise equal constrained-column names and type families. The
referenced columns' names are never compared. -/
def foreign_keys_match (ptable : Table) (previous : ForeignKey)
    (ntable : Table) (next : ForeignKey) : Bool :=
  previous.referenced_table == next.referenced_table &&
  previous.referenced_columns.length == next.referenced_columns.length &&
  (constrained_columns ptable previous).length == (constrained_columns ntable next).length &&
  ((constrained_columns ptable previous).zip (constrained_columns ntable next)).all
    (fun pn => pn.1.name == pn.2.name && decide (pn.1.tpe.family = pn.2.tpe.family))

/-- `TableDiffer` over a matched table pair. -/
structure TableDiffer where
  diffing_options : DiffingOptions
  previous : Table
  next : Table

/-- Modelled from the spec: columns within a matched table pair match by name
equality. -/
def TableDiffer.column_pairs (differ : TableDiffer) : List (Column × Column) :=
  differ.previous.columns.filterMap (fun pc =>
    (differ.next.columns.find? (fun nc => nc.name == pc.name)).map (fun nc => (pc, nc)))

/-- Modelled from the spec: previous columns with no same-named next column. -/
def TableDiffer.dropped_columns (differ : TableDiffer) : List Column :=
  differ.previous.columns.filter (fun pc =>
    !(differ.next.columns.any (fun nc => nc.name == pc.name)))

/-- Modelled from the spec: next columns with no same-named previous column. -/
def TableDiffer.added_columns (differ : TableDiffer) : List Column :=
  differ.next.columns.filter (fun nc =>
    !(differ.previous.columns.any (fun pc => pc.name == nc.name)))

/-- Modelled from the spec: default values compare by value equality. -/
def defaults_match (previous next : Option DefaultValue) : Bool :=
  decide (previous = next)

/-- Modelled from the spec: a column "differs in something" when its type
family, arity, default or auto-increment flag differs
(`ColumnDiffer::differs_in_something` of `column.rs`). -/
def differs_in_something (previous next : Column) : Bool :=
  decide (previous.tpe.family ≠ next.tpe.family) ||
  decide (previous.tpe.arity ≠ next.tpe.arity) ||
  !(defaults_match previous.default next.default) ||
  decide (previous.auto_increment ≠ next.auto_increment)

/-- Modelled from the spec: two indexes match when their column sequences and
uniqueness flag are identical. -/
def indexes_match (previous next : Index) : Bool :=
  previous.columns == next.columns && decide (previous.tpe = next.tpe)

/-- Modelled from the spec: next indexes with no matching previous index. -/
def TableDiffer.created_indexes (differ : TableDiffer) : List Index :=
  differ.next.indices.filter (fun n =>
    !(differ.previous.indices.any (fun p => indexes_match p n)))

/-- Modelled from the spec: previous indexes with no matching next index. -/
def TableDiffer.dropped_indexes (differ : TableDiffer) : List Index :=
  differ.previous.indices.filter (fun p =>
    !(differ.next.indices.any (fun n => indexes_match p n)))

/-- Modelled from the spec: a rename is detected when a previous index is the
only previous index with its column sequence and type and a next index shares
them under a different name. -/
def TableDiffer.index_pairs (differ : TableDiffer) : List (Index × Index) :=
  differ.previous.indices.filterMap (fun p =>
    if differ.previous.indices.countP (fun q => indexes_match p q) = 1 then
      (differ.next.indices.find? (fun n => indexes_match p n && p.name != n.name)).map
        (fun n => (p, n))
    else none)

/-- Modelled from the spec: next foreign keys with no matching previous one. -/
def TableDiffer.created_foreign_keys (differ : TableDiffer) : List ForeignKey :=
  differ.next.foreign_keys.filter (fun nfk =>
    !(differ.previous.foreign_keys.any (fun pfk =>
      foreign_keys_match differ.previous pfk differ.next nfk)))

/-- Modelled from the spec: previous foreign keys with no matching next one. -/
def TableDiffer.dropped_foreign_keys (differ : TableDiffer) : List ForeignKey :=
  differ.previous.foreign_keys.filter (fun pfk =>
    !(differ.next.foreign_keys.any (fun nfk =>
      foreign_keys_match differ.previous pfk differ.next nfk)))

/-- Modelled from the spec: a primary key was created when one now exists that
did not, or its column list changed. -/
def TableDiffer.created_primary_key (differ : TableDiffer) : Option PrimaryKey :=
  match differ.previous.primary_key, differ.next.primary_key with
  | none, some pk => some pk
  | some ppk, some npk => if ppk.columns ≠ npk.columns then some npk else none
  | _, _ => none

/-- Modelled from the spec: a primary key was dropped when it no longer exists
or its column list changed. -/
def TableDiffer.dropped_primary_key (differ : TableDiffer) : Option PrimaryKey :=
  match differ.previous.primary_key, differ.next.primary_key with
  | some pk, none => some pk
  | some ppk, some npk => if ppk.columns ≠ npk.columns then some ppk else none
  | _, _ => none

/-- Modelled from the spec: enum variants present in next but not previous
(`EnumDiffer::created_values` of `enums.rs`). -/
def created_values (previous next : Enum) : List String :=
  next.values.filter (fun v => !(previous.values.contains v))

/-- Modelled from the spec: enum variants present in previous but not next
(`EnumDiffer::dropped_values` of `enums.rs`). -/
def dropped_values (previous next : Enum) : List String :=
  previous.values.filter (fun v => !(next.values.contains v))

/-- Modelled from the spec: an index is wholly subsumed by a foreign key of the
table when some foreign key constrains exactly the index's column sequence
(`index::index_covers_fk`; the call site in `sql_schema_differ.rs` passes the
whole previous table, so coverage cannot depend on which foreign keys are
dropped). -/
def index_covers_fk (table : Table) (index : Index) : Bool :=
  table.foreign_keys.any (fun fk => fk.columns == index.columns)

/-- `SqlSchemaDiffer` from `sql_schema_differ.rs`. -/
structure SqlSchemaDiffer where
  previous : SqlSchema
  next : SqlSchema
  sql_family : SqlFamily
  diffing_options : DiffingOptions

/-- `SqlSchemaDiffer::table_is_ignored`. -/
def SqlSchemaDiffer.table_is_ignored (differ : SqlSchemaDiffer)
    (table_name : String) : Bool :=
  table_name == MIGRATION_TABLE_NAME ||
    differ.diffing_options.ignore_tables table_name

/-- `SqlSchemaDiffer::previous_tables`: previous tables minus ignored ones. -/
def SqlSchemaDiffer.previous_tables (differ : SqlSchemaDiffer) : List Table :=
  differ.previous.tables.filter (fun t => !(differ.table_is_ignored t.name))

/-- `SqlSchemaDiffer::next_tables`: next tables minus ignored ones. -/
def SqlSchemaDiffer.next_tables (differ : SqlSchemaDiffer) : List Table :=
  differ.next.tables.filter (fun t => !(differ.table_is_ignored t.name))

/-- `SqlSchemaDiffer::created_tables`. -/
def SqlSchemaDiffer.created_tables (differ : SqlSchemaDiffer) : List Table :=
  differ.next_tables.filter (fun t => !(differ.previous.has_table t.name))

/-- `SqlSchemaDiffer::dropped_tables`. -/
def SqlSchemaDiffer.dropped_tables (differ : SqlSchemaDiffer) : List Table :=
  differ.previous_tables.filter (fun pt =>
    !(differ.next_tables.any (fun nt => tables_match pt nt)))

/-- `SqlSchemaDiffer::table_pairs`: note that this iterates the raw table
lists of both snapshots, not the ignore-filtered `previous_tables` /
`next_tables`. -/
def SqlSchemaDiffer.table_pairs (differ : SqlSchemaDiffer) : List TableDiffer :=
  differ.previous.tables.filterMap (fun pt =>
    (differ.next.tables.find? (fun nt => tables_match pt nt)).map
      (fun nt => ⟨differ.diffing_options, pt, nt⟩))

/-- `SqlSchemaDiffer::create_tables`. -/
def SqlSchemaDiffer.create_tables (differ : SqlSchemaDiffer) : List CreateTable :=
  differ.created_tables.map (fun t => ⟨t⟩)

/-- `SqlSchemaDiffer::drop_tables`: the DropTable records of the dropped
tables together with a DropForeignKey for every *named* foreign key of each
dropped table. -/
def SqlSchemaDiffer.drop_tables (differ : SqlSchemaDiffer) :
    List DropTable × List DropForeignKey :=
  (differ.dropped_tables.map (fun t => ⟨t.name⟩),
   differ.dropped_tables.flatMap (fun t =>
     (t.foreign_keys.filterMap (fun fk => fk.constraint_name)).map
       (fun n => ⟨t.name, n⟩)))

/-- `SqlSchemaDiffer::drop_foreign_keys`: DropForeignKey records for the named
dropped foreign keys of every matched table pair. -/
def SqlSchemaDiffer.drop_foreign_keys (differ : SqlSchemaDiffer) :
    List DropForeignKey :=
  differ.table_pairs.flatMap (fun tables =>
    (tables.dropped_foreign_keys.filterMap (fun fk => fk.constraint_name)).map
      (fun n => ⟨tables.previous.name, n⟩))

/-- `push_foreign_keys_from_created_tables`. -/
def push_foreign_keys_from_created_tables (created_tables : List Table) :
    List AddForeignKey :=
  created_tables.flatMap (fun t => t.foreign_keys.map (fun fk => ⟨t.name, fk⟩))

/-- `push_created_foreign_keys`. -/
def push_created_foreign_keys (table_pairs : List TableDiffer) :
    List AddForeignKey :=
  table_pairs.flatMap (fun tables =>
    tables.created_foreign_keys.map (fun fk => ⟨tables.next.name, fk⟩))

/-- `SqlSchemaDiffer::add_foreign_keys`. -/
def SqlSchemaDiffer.add_foreign_keys (differ : SqlSchemaDiffer) :
    List AddForeignKey :=
  push_foreign_keys_from_created_tables differ.created_tables ++
    push_created_foreign_keys differ.table_pairs

/-- `SqlSchemaDiffer::drop_columns`. -/
def SqlSchemaDiffer.drop_columns (differ : TableDiffer) : List TableChange :=
  differ.dropped_columns.map (fun c => .DropColumn c.name)

/-- `SqlSchemaDiffer::add_columns`. -/
def SqlSchemaDiffer.add_columns (differ : TableDiffer) : List TableChange :=
  differ.added_columns.map (fun c => .AddColumn c)

/-- `SqlSchemaDiffer::alter_columns`: one AlterColumn carrying the full
next-side column for every matched column pair that differs in something. -/
def SqlSchemaDiffer.alter_columns (differ : TableDiffer) : List TableChange :=
  differ.column_pairs.filterMap (fun pn =>
    if differs_in_something pn.1 pn.2 then some (.AlterColumn pn.1.name pn.2)
    else none)

/-- `SqlSchemaDiffer::add_primary_key`. -/
def SqlSchemaDiffer.add_primary_key (differ : TableDiffer) : Option TableChange :=
  (Option.filter (fun pk => !pk.columns.isEmpty) differ.created_primary_key).map
    (fun pk => .AddPrimaryKey pk.columns)

/-- `SqlSchemaDiffer::drop_primary_key`. -/
def SqlSchemaDiffer.drop_primary_key (differ : TableDiffer) : Option TableChange :=
  differ.dropped_primary_key.map (fun pk => .DropPrimaryKey pk.constraint_name)

/-- The ordered change list of `SqlSchemaDiffer::alter_tables` (the local
`changes` binding in the source): drop-primary-key, drop-columns,
add-columns, alter-columns, add-primary-key. -/
def SqlSchemaDiffer.table_changes (tables : TableDiffer) : List TableChange :=
  (SqlSchemaDiffer.drop_primary_key tables).toList ++
  SqlSchemaDiffer.drop_columns tables ++
  SqlSchemaDiffer.add_columns tables ++
  SqlSchemaDiffer.alter_columns tables ++
  (SqlSchemaDiffer.add_primary_key tables).toList

/-- `SqlSchemaDiffer::alter_tables`: an AlterTable carrying the change list is
emitted only when the change list is non-empty. -/
def SqlSchemaDiffer.alter_tables (differ : SqlSchemaDiffer) : List AlterTable :=
  differ.table_pairs.filterMap (fun tables =>
    if (SqlSchemaDiffer.table_changes tables).isEmpty then none
    else some ⟨tables.next, SqlSchemaDiffer.table_changes tables⟩)

/-- `SqlSchemaDiffer::create_indexes`: indexes of created tables first, then
created indexes of matched table pairs. -/
def SqlSchemaDiffer.create_indexes (differ : SqlSchemaDiffer) : List CreateIndex :=
  differ.created_tables.flatMap (fun t => t.indices.map (fun i => ⟨t.name, i⟩)) ++
    differ.table_pairs.flatMap (fun tables =>
      tables.created_indexes.map (fun i => ⟨tables.next.name, i⟩))

/-- `SqlSchemaDiffer::drop_indexes`: on MySQL, a dropped index covered by a
foreign key of the previous table is suppressed. -/
def SqlSchemaDiffer.drop_indexes (differ : SqlSchemaDiffer) : List DropIndex :=
  differ.table_pairs.flatMap (fun tables =>
    tables.dropped_indexes.filterMap (fun i =>
      if differ.sql_family.is_mysql && index_covers_fk tables.previous i then none
      else some ⟨tables.previous.name, i.name⟩))

/-- `SqlSchemaDiffer::previous_enums`. -/
def SqlSchemaDiffer.previous_enums (differ : SqlSchemaDiffer) : List Enum :=
  differ.previous.enums

/-- `SqlSchemaDiffer::next_enums`. -/
def SqlSchemaDiffer.next_enums (differ : SqlSchemaDiffer) : List Enum :=
  differ.next.enums

/-- `SqlSchemaDiffer::enum_pairs`. -/
def SqlSchemaDiffer.enum_pairs (differ : SqlSchemaDiffer) : List (Enum × Enum) :=
  differ.previous_enums.filterMap (fun p =>
    (differ.next_enums.find? (fun n => enums_match p n)).map (fun n => (p, n)))

/-- `SqlSchemaDiffer::created_enums`. -/
def SqlSchemaDiffer.created_enums (differ : SqlSchemaDiffer) : List Enum :=
  differ.next_enums.filter (fun n =>
    !(differ.previous_enums.any (fun p => enums_match p n)))

/-- `SqlSchemaDiffer::dropped_enums`. -/
def SqlSchemaDiffer.dropped_enums (differ : SqlSchemaDiffer) : List Enum :=
  differ.previous_enums.filter (fun p =>
    !(differ.next_enums.any (fun n => enums_match p n)))

/-- `SqlSchemaDiffer::create_enums`. -/
def SqlSchemaDiffer.create_enums (differ : SqlSchemaDiffer) : List CreateEnum :=
  differ.created_enums.map (fun e => ⟨e.name, e.values⟩)

/-- `SqlSchemaDiffer::drop_enums`. -/
def SqlSchemaDiffer.drop_enums (differ : SqlSchemaDiffer) : List DropEnum :=
  differ.dropped_enums.map (fun e => ⟨e.name⟩)

/-- `SqlSchemaDiffer::alter_enums`: a step carrying the created and dropped
variant lists, skipped when both are empty. -/
def SqlSchemaDiffer.alter_enums (differ : SqlSchemaDiffer) : List AlterEnum :=
  differ.enum_pairs.filterMap (fun pr =>
    let step : AlterEnum := ⟨pr.1.name, created_values pr.1 pr.2, dropped_values pr.1 pr.2⟩
    if step.is_empty then none else some step)

/-- `SqlSchemaDiffer::alter_indexes`. -/
def SqlSchemaDiffer.alter_indexes (differ : SqlSchemaDiffer) : List AlterIndex :=
  differ.table_pairs.flatMap (fun tables =>
    tables.index_pairs.map (fun pr => ⟨tables.next.name, pr.1.name, pr.2.name⟩))

/-- `SqlSchemaDiffer::diff_internal`. -/
def SqlSchemaDiffer.diff_internal (differ : SqlSchemaDiffer) : SqlSchemaDiff :=
  { add_foreign_keys := differ.add_foreign_keys
    drop_foreign_keys := differ.drop_tables.2 ++ differ.drop_foreign_keys
    drop_tables := differ.drop_tables.1
    create_tables := differ.create_tables
    alter_tables := differ.alter_tables
    create_indexes := differ.create_indexes
    drop_indexes := differ.drop_indexes
    alter_indexes := differ.alter_indexes
    create_enums := differ.create_enums
    drop_enums := differ.drop_enums
    alter_enums := differ.alter_enums }

/-- `SqlSchemaDiffer::diff`. -/
def SqlSchemaDiffer.diff (previous next : SqlSchema) (sql_family : SqlFamily)
    (options : DiffingOptions) : SqlSchemaDiff :=
  SqlSchemaDiffer.diff_internal ⟨previous, next, sql_family, options⟩

/- Destructive-change checker, Postgres flavour
(`destructive_change_checker_flavour/postgres.rs`). -/

/-- The two verdicts an alter-column check can append to the plan. -/
inductive CheckVerdict where
  | warning
  | unexecutable
  deriving DecidableEq

/-- Modelled from the spec: `ColumnChanges::arity_changed` of `column.rs` —
the arity differs between the two sides. -/
def arity_changed (previous next : Column) : Bool :=
  decide (previous.tpe.arity ≠ next.tpe.arity)

/-- `default_can_be_rendered` from `postgres.rs` lines 70–78. -/
def default_can_be_rendered : Option DefaultValue → Bool
  | none => false
  | some (.VALUE _) => true
  | some (.DBGENERATED expr) => !expr.isEmpty
  | some (.NOW) => true
  | some (.SEQUENCE _) => false

/-- The drop-and-recreate branch of `PostgresFlavour::check_alter_column`
(`postgres.rs` lines 48–66): taken when `expand_postgres_alter_column`
returns no native alter steps. It pushes Unexecutable exactly when the arity
changed from nullable to required and the next default cannot be rendered,
and a Warning otherwise. -/
def check_alter_column_drop_and_recreate (previous next : Column) : CheckVerdict :=
  if arity_changed previous next && previous.tpe.arity.is_nullable &&
      next.tpe.arity.is_required && !(default_can_be_rendered next.default) then
    .unexecutable
  else
    .warning

/-- C4: in the Postgres drop-and-recreate path, a nullable→required column is
Unexecutable exactly when the next default is not renderable, and a Warning
otherwise; renderable means a literal value, NOW, or a non-empty
database-generated expression, while a sequence default and an absent default
are never renderable. -/
theorem C4_postgres_drop_recreate_verdict (previous next : Column)
    (hp : previous.tpe.arity = .nullable) (hn : next.tpe.arity = .required) :
    (check_alter_column_drop_and_recreate previous next = .unexecutable ↔
      default_can_be_rendered next.default = false) ∧
    (check_alter_column_drop_and_recreate previous next = .warning ↔
      default_can_be_rendered next.default = true) ∧
    (∀ v, default_can_be_rendered (some (.VALUE v)) = true) ∧
    default_can_be_rendered (some .NOW) = true ∧
    (∀ expr, default_can_be_rendered (some (.DBGENERATED expr)) = !expr.isEmpty) ∧
    (∀ expr, default_can_be_rendered (some (.SEQUENCE expr)) = false) ∧
    default_can_be_rendered none = false := by
  have ha : arity_changed previous next = true := by
    simp [arity_changed, hp, hn]
  have hnl : previous.tpe.arity.is_nullable = true := by rw [hp]; rfl
  have hrq : next.tpe.arity.is_required = true := by rw [hn]; rfl
  refine ⟨?_, ?_, fun v => rfl, rfl, fun expr => rfl, fun expr => rfl, rfl⟩
  · cases h : default_can_be_rendered next.default <;>
      simp [check_alter_column_drop_and_recreate, ha, hnl, hrq, h]
  · cases h : default_can_be_rendered next.default <;>
      simp [check_alter_column_drop_and_recreate, ha, hnl, hrq, h]

/-- A nullable int column with no default. -/
def colPrevC4 : Column := ⟨"age", ⟨.int, .nullable⟩, none, false⟩

/-- The same column made required with a sequence default. -/
def colNextC4 : Column := ⟨"age", ⟨.int, .required⟩, some (.SEQUENCE "seq"), false⟩

/-- Witness for C4: a sequence default is not renderable, so the concrete
nullable→required change is Unexecutable. -/
theorem C4_witness :
    check_alter_column_drop_and_recreate colPrevC4 colNextC4 = .unexecutable :=
  ((C4_postgres_drop_recreate_verdict colPrevC4 colNextC4 rfl rfl).1).mpr (by decide)

/- Shared concrete sample values for the remaining claims. -/

/-- Diffing options with no ignored-table patterns, Postgres family. -/
def opts0 : DiffingOptions := ⟨false, .postgres, fun _ => false⟩

/-- Diffing options with no ignored-table patterns, MySQL family. -/
def optsMy : DiffingOptions := ⟨false, .mysql, fun _ => false⟩

def colA : Column := ⟨"a", ⟨.int, .required⟩, none, false⟩

def colB : Column := ⟨"b", ⟨.string, .nullable⟩, none, false⟩

def idxI : Index := ⟨"i", ["a"], .normal⟩

/- C2: the migration-history table is excluded from created and dropped
tables, but `table_pairs` does not exclude it, so a `_Migration` table present
in both snapshots with a difference produces an AlterTable step. -/

def prevC2 : SqlSchema := ⟨[⟨"_Migration", [colA], [], none, []⟩], []⟩

def nextC2 : SqlSchema := ⟨[⟨"_Migration", [colA, colB], [], none, []⟩], []⟩

/-- C2 counterexample: `_Migration` is an ignored table name, yet diffing two
snapshots that both contain it (with a column added) emits an AlterTable step
referencing it. -/
theorem C2_counterexample :
    (SqlSchemaDiffer.mk prevC2 nextC2 .postgres opts0).table_is_ignored
      MIGRATION_TABLE_NAME = true ∧
    ((SqlSchemaDiffer.diff prevC2 nextC2 .postgres opts0).alter_tables.map
      (fun a => a.table.name)) = [MIGRATION_TABLE_NAME] := by
  constructor
  · rfl
  · decide

lemma mem_created_tables_not_ignored {differ : SqlSchemaDiffer} {t : Table}
    (h : t ∈ differ.created_tables) : differ.table_is_ignored t.name = false := by
  simp only [SqlSchemaDiffer.created_tables] at h
  have h1 : t ∈ differ.next_tables := (List.mem_filter.mp h).1
  simp only [SqlSchemaDiffer.next_tables] at h1
  have h2 := (List.mem_filter.mp h1).2
  simpa using h2

lemma mem_dropped_tables_not_ignored {differ : SqlSchemaDiffer} {t : Table}
    (h : t ∈ differ.dropped_tables) : differ.table_is_ignored t.name = false := by
  simp only [SqlSchemaDiffer.dropped_tables] at h
  have h1 : t ∈ differ.previous_tables := (List.mem_filter.mp h).1
  simp only [SqlSchemaDiffer.previous_tables] at h1
  have h2 := (List.mem_filter.mp h1).2
  simpa using h2

/-- C2 amended: no CreateTable and no DropTable step of the diff references an
ignored table (created and dropped tables are filtered through the ignore
predicate); tables present in both snapshots, however, are matched by
`table_pairs` without that filter, so alter-family steps can reference an
ignored table (see the counterexample). -/
theorem C2_creates_drops_never_ignored (previous next : SqlSchema)
    (fam : SqlFamily) (options : DiffingOptions) :
    (∀ ct ∈ (SqlSchemaDiffer.diff previous next fam options).create_tables,
      (SqlSchemaDiffer.mk previous next fam options).table_is_ignored
        ct.table.name = false) ∧
    (∀ dt ∈ (SqlSchemaDiffer.diff previous next fam options).drop_tables,
      (SqlSchemaDiffer.mk previous next fam options).table_is_ignored
        dt.name = false) := by
  constructor
  · intro ct hct
    simp only [SqlSchemaDiffer.diff, SqlSchemaDiffer.diff_internal,
      SqlSchemaDiffer.create_tables, List.mem_map] at hct
    rcases hct with ⟨t, ht, rfl⟩
    exact mem_created_tables_not_ignored ht
  · intro dt hdt
    simp only [SqlSchemaDiffer.diff, SqlSchemaDiffer.diff_internal,
      SqlSchemaDiffer.drop_tables, List.mem_map] at hdt
    rcases hdt with ⟨t, ht, rfl⟩
    exact mem_dropped_tables_not_ignored ht

def prevW2 : SqlSchema := ⟨[⟨"old", [], [], none, []⟩], []⟩

def nextW2 : SqlSchema := ⟨[⟨"fresh", [], [], none, []⟩], []⟩

/-- Witness for the amended C2 at a diff that creates `fresh` and drops
`old`. -/
theorem C2_witness :
    (SqlSchemaDiffer.mk prevW2 nextW2 .postgres opts0).table_is_ignored
      "fresh" = false ∧
    (SqlSchemaDiffer.mk prevW2 nextW2 .postgres opts0).table_is_ignored
      "old" = false :=
  ⟨(C2_creates_drops_never_ignored prevW2 nextW2 .postgres opts0).1
      ⟨⟨"fresh", [], [], none, []⟩⟩ (by decide),
    (C2_creates_drops_never_ignored prevW2 nextW2 .postgres opts0).2
      ⟨"old"⟩ (by decide)⟩

/- C3: dropped tables pre-emit DropForeignKey records — but only for foreign
keys that carry a constraint name. -/

def nextEmpty : SqlSchema := ⟨[], []⟩

/-- A foreign key without a constraint name. -/
def fkNoName : ForeignKey := ⟨none, ["a"], "u", ["id"], .noAction⟩

def prevC3 : SqlSchema := ⟨[⟨"t", [colA], [], none, [fkNoName]⟩], []⟩

/-- C3 counterexample: dropping a table that owns one (unnamed) foreign key
produces the DropTable record but no DropForeignKey record at all. -/
theorem C3_counterexample :
    (prevC3.tables.map (fun t => t.foreign_keys.length)) = [1] ∧
    (SqlSchemaDiffer.diff prevC3 nextEmpty .postgres opts0).drop_tables =
      [⟨"t"⟩] ∧
    (SqlSchemaDiffer.diff prevC3 nextEmpty .postgres opts0).drop_foreign_keys
      = [] := by
  decide

/-- C3 amended: for every dropped table the diff contains its DropTable
record, and for every foreign key of that table that carries a constraint
name a DropForeignKey record naming the table; unnamed foreign keys yield no
DropForeignKey record. -/
theorem C3_dropped_table_drops_named_fks (previous next : SqlSchema)
    (fam : SqlFamily) (options : DiffingOptions) :
    ∀ t ∈ (SqlSchemaDiffer.mk previous next fam options).dropped_tables,
      DropTable.mk t.name ∈
        (SqlSchemaDiffer.diff previous next fam options).drop_tables ∧
      ∀ fk ∈ t.foreign_keys, ∀ cname, fk.constraint_name = some cname →
        DropForeignKey.mk t.name cname ∈
          (SqlSchemaDiffer.diff previous next fam options).drop_foreign_keys := by
  intro t ht
  constructor
  · simp only [SqlSchemaDiffer.diff, SqlSchemaDiffer.diff_internal,
      SqlSchemaDiffer.drop_tables]
    exact List.mem_map.mpr ⟨t, ht, rfl⟩
  · intro fk hfk cname hc
    simp only [SqlSchemaDiffer.diff, SqlSchemaDiffer.diff_internal]
    refine List.mem_append.mpr (Or.inl ?_)
    simp only [SqlSchemaDiffer.drop_tables]
    refine List.mem_flatMap.mpr ⟨t, ht, ?_⟩
    refine List.mem_map.mpr ⟨cname, ?_, rfl⟩
    exact List.mem_filterMap.mpr ⟨fk, hfk, hc⟩

/-- A named foreign key. -/
def fkNamed : ForeignKey := ⟨some "fk1", ["a"], "u", ["id"], .noAction⟩

def tblW3 : Table := ⟨"t", [colA], [], none, [fkNamed]⟩

def prevW3 : SqlSchema := ⟨[tblW3], []⟩

/-- Witness for the amended C3: dropping a table with a named foreign key
yields both records. -/
theorem C3_witness :
    DropTable.mk "t" ∈
      (SqlSchemaDiffer.diff prevW3 nextEmpty .postgres opts0).drop_tables ∧
    DropForeignKey.mk "t" "fk1" ∈
      (SqlSchemaDiffer.diff prevW3 nextEmpty .postgres opts0).drop_foreign_keys :=
  ⟨(C3_dropped_table_drops_named_fks prevW3 nextEmpty .postgres opts0 tblW3
      (by decide)).1,
    (C3_dropped_table_drops_named_fks prevW3 nextEmpty .postgres opts0 tblW3
      (by decide)).2 fkNamed (by decide) "fk1" rfl⟩

/- C5: a created table's definition travels in the CreateTable payload, but
its indexes are additionally emitted as separate CreateIndex steps. -/

def tblC5 : Table := ⟨"t", [colA], [idxI], none, []⟩

def nextC5 : SqlSchema := ⟨[tblC5], []⟩

/-- C5 counterexample: a created table with one index yields, besides the
CreateTable record carrying the index in its payload, a separate CreateIndex
step for that table. -/
theorem C5_counterexample :
    (SqlSchemaDiffer.diff nextEmpty nextC5 .postgres opts0).create_tables =
      [⟨tblC5⟩] ∧
    (SqlSchemaDiffer.diff nextEmpty nextC5 .postgres opts0).create_indexes =
      [⟨"t", idxI⟩] := by
  decide

/-- C5 amended: every created table yields a CreateTable record carrying its
full definition (indexes and foreign keys included), and additionally a
separate CreateIndex step for each of its indexes. -/
theorem C5_created_table_payload_and_index_steps (previous next : SqlSchema)
    (fam : SqlFamily) (options : DiffingOptions) :
    ∀ t ∈ (SqlSchemaDiffer.mk previous next fam options).created_tables,
      CreateTable.mk t ∈
        (SqlSchemaDiffer.diff previous next fam options).create_tables ∧
      ∀ i ∈ t.indices, CreateIndex.mk t.name i ∈
        (SqlSchemaDiffer.diff previous next fam options).create_indexes := by
  intro t ht
  constructor
  · simp only [SqlSchemaDiffer.diff, SqlSchemaDiffer.diff_internal,
      SqlSchemaDiffer.create_tables]
    exact List.mem_map.mpr ⟨t, ht, rfl⟩
  · intro i hi
    simp only [SqlSchemaDiffer.diff, SqlSchemaDiffer.diff_internal,
      SqlSchemaDiffer.create_indexes]
    refine List.mem_append.mpr (Or.inl ?_)
    refine List.mem_flatMap.mpr ⟨t, ht, ?_⟩
    exact List.mem_map.mpr ⟨i, hi, rfl⟩

/-- Witness for the amended C5 at the concrete created table `tblC5`. -/
theorem C5_witness :
    CreateTable.mk tblC5 ∈
      (SqlSchemaDiffer.diff nextEmpty nextC5 .postgres opts0).create_tables ∧
    CreateIndex.mk "t" idxI ∈
      (SqlSchemaDiffer.diff nextEmpty nextC5 .postgres opts0).create_indexes :=
  ⟨(C5_created_table_payload_and_index_steps nextEmpty nextC5 .postgres opts0
      tblC5 (by decide)).1,
    (C5_created_table_payload_and_index_steps nextEmpty nextC5 .postgres opts0
      tblC5 (by decide)).2 idxI (by decide)⟩

/- C6: diffing a snapshot against itself. The spec's well-formedness
invariants (unique table names, unique column names per table, unique enum
names) are hypotheses. -/

lemma find?_unique_mem {α : Type} {p : α → Bool} {x : α} :
    ∀ {l : List α}, x ∈ l → p x = true → (∀ y ∈ l, p y = true → y = x) →
      l.find? p = some x := by
  intro l
  induction l with
  | nil => intro h; cases h
  | cons a l ih =>
      intro hm hpx huniq
      by_cases hpa : p a = true
      · rw [List.find?_cons_of_pos _ hpa]
        exact congrArg some (huniq a (List.mem_cons_self a l) hpa)
      · rw [List.find?_cons_of_neg _ hpa]
        have hx : x ∈ l := by
          rcases List.mem_cons.mp hm with rfl | h
          · exact absurd hpx hpa
          · exact h
        exact ih hx hpx (fun y hy hpy => huniq y (List.mem_cons_of_mem _ hy) hpy)

lemma filterMap_eq_map_of_some {α β : Type} {f : α → Option β} {g : α → β} :
    ∀ {l : List α}, (∀ a ∈ l, f a = some (g a)) → l.filterMap f = l.map g := by
  intro l
  induction l with
  | nil => intro _; rfl
  | cons a l ih =>
      intro h
      simp only [List.filterMap_cons, h a (List.mem_cons_self a l), List.map_cons]
      rw [ih (fun b hb => h b (List.mem_cons_of_mem _ hb))]

lemma countP_one_unique {α : Type} {p : α → Bool} {l : List α}
    (h : l.countP p = 1) {x y : α} (hx : x ∈ l) (hpx : p x = true)
    (hy : y ∈ l) (hpy : p y = true) : x = y := by
  have hl : (l.filter p).length = 1 := by
    rw [← List.countP_eq_length_filter]
    exact h
  rcases List.length_eq_one.mp hl with ⟨z, hz⟩
  have hxz : x ∈ l.filter p := List.mem_filter.mpr ⟨hx, hpx⟩
  have hyz : y ∈ l.filter p := List.mem_filter.mpr ⟨hy, hpy⟩
  rw [hz] at hxz hyz
  simp only [List.mem_singleton] at hxz hyz
  rw [hxz, hyz]

lemma tables_match_self (t : Table) : tables_match t t = true := by
  simp [tables_match]

lemma enums_match_self (e : Enum) : enums_match e e = true := by
  simp [enums_match]

lemma indexes_match_self (i : Index) : indexes_match i i = true := by
  simp [indexes_match]

lemma zip_self_all_cols : ∀ (l : List Column),
    ((l.zip l).all fun pn =>
      pn.1.name == pn.2.name && decide (pn.1.tpe.family = pn.2.tpe.family)) = true
  | [] => rfl
  | c :: l => by simp [zip_self_all_cols l]

lemma foreign_keys_match_self (t : Table) (fk : ForeignKey) :
    foreign_keys_match t fk t fk = true := by
  simp [foreign_keys_match, zip_self_all_cols]

lemma differs_in_something_self (c : Column) :
    differs_in_something c c = false := by
  simp [differs_in_something, defaults_match]

lemma self_dropped_columns (o : DiffingOptions) (t : Table) :
    (TableDiffer.mk o t t).dropped_columns = [] := by
  simp only [TableDiffer.dropped_columns]
  apply List.filter_eq_nil_iff.mpr
  intro c hc
  have h : t.columns.any (fun nc => nc.name == c.name) = true :=
    List.any_eq_true.mpr ⟨c, hc, by simp⟩
  simp [h]

lemma self_added_columns (o : DiffingOptions) (t : Table) :
    (TableDiffer.mk o t t).added_columns = [] := by
  simp only [TableDiffer.added_columns]
  apply List.filter_eq_nil_iff.mpr
  intro c hc
  have h : t.columns.any (fun pc => pc.name == c.name) = true :=
    List.any_eq_true.mpr ⟨c, hc, by simp⟩
  simp [h]

lemma self_column_pairs (o : DiffingOptions) (t : Table)
    (h : (t.columns.map Column.name).Nodup) :
    (TableDiffer.mk o t t).column_pairs = t.columns.map (fun c => (c, c)) := by
  simp only [TableDiffer.column_pairs]
  apply filterMap_eq_map_of_some
  intro pc hpc
  have hf : t.columns.find? (fun nc => nc.name == pc.name) = some pc := by
    apply find?_unique_mem hpc (by simp)
    intro y hy hpy
    have hn : y.name = pc.name := by simpa using hpy
    exact List.inj_on_of_nodup_map h hy hpc hn
  rw [hf]
  rfl

lemma self_alter_columns (o : DiffingOptions) (t : Table)
    (h : (t.columns.map Column.name).Nodup) :
    SqlSchemaDiffer.alter_columns (TableDiffer.mk o t t) = [] := by
  simp only [SqlSchemaDiffer.alter_columns, self_column_pairs o t h]
  apply List.filterMap_eq_nil_iff.mpr
  intro pn hpn
  rcases List.mem_map.mp hpn with ⟨c, _, rfl⟩
  simp [differs_in_something_self]

lemma self_dropped_indexes (o : DiffingOptions) (t : Table) :
    (TableDiffer.mk o t t).dropped_indexes = [] := by
  simp only [TableDiffer.dropped_indexes]
  apply List.filter_eq_nil_iff.mpr
  intro i hi
  have h : t.indices.any (fun n => indexes_match i n) = true :=
    List.any_eq_true.mpr ⟨i, hi, indexes_match_self i⟩
  simp [h]

lemma self_created_indexes (o : DiffingOptions) (t : Table) :
    (TableDiffer.mk o t t).created_indexes = [] := by
  simp only [TableDiffer.created_indexes]
  apply List.filter_eq_nil_iff.mpr
  intro i hi
  have h : t.indices.any (fun p => indexes_match p i) = true :=
    List.any_eq_true.mpr ⟨i, hi, indexes_match_self i⟩
  simp [h]

lemma self_index_pairs (o : DiffingOptions) (t : Table) :
    (TableDiffer.mk o t t).index_pairs = [] := by
  simp only [TableDiffer.index_pairs]
  apply List.filterMap_eq_nil_iff.mpr
  intro p hp
  by_cases hc : t.indices.countP (fun q => indexes_match p q) = 1
  · rw [if_pos hc]
    have hfind :
        t.indices.find? (fun n => indexes_match p n && p.name != n.name) = none := by
      apply List.find?_eq_none.mpr
      intro n hn hcontra
      rw [Bool.and_eq_true] at hcontra
      have h1 : indexes_match p n = true := hcontra.1
      have h2 : (p.name != n.name) = true := hcontra.2
      have hpn : p = n := countP_one_unique hc hp (indexes_match_self p) hn h1
      rw [hpn] at h2
      simp at h2
    rw [hfind]
    rfl
  · rw [if_neg hc]

lemma self_created_foreign_keys (o : DiffingOptions) (t : Table) :
    (TableDiffer.mk o t t).created_foreign_keys = [] := by
  simp only [TableDiffer.created_foreign_keys]
  apply List.filter_eq_nil_iff.mpr
  intro fk hfk
  have h : t.foreign_keys.any
      (fun pfk => foreign_keys_match t pfk t fk) = true :=
    List.any_eq_true.mpr ⟨fk, hfk, foreign_keys_match_self t fk⟩
  simp [h]

lemma self_dropped_foreign_keys (o : DiffingOptions) (t : Table) :
    (TableDiffer.mk o t t).dropped_foreign_keys = [] := by
  simp only [TableDiffer.dropped_foreign_keys]
  apply List.filter_eq_nil_iff.mpr
  intro fk hfk
  have h : t.foreign_keys.any
      (fun nfk => foreign_keys_match t fk t nfk) = true :=
    List.any_eq_true.mpr ⟨fk, hfk, foreign_keys_match_self t fk⟩
  simp [h]

lemma self_created_primary_key (o : DiffingOptions) (t : Table) :
    (TableDiffer.mk o t t).created_primary_key = none := by
  cases hpk : t.primary_key <;>
    simp [TableDiffer.created_primary_key, hpk]

lemma self_dropped_primary_key (o : DiffingOptions) (t : Table) :
    (TableDiffer.mk o t t).dropped_primary_key = none := by
  cases hpk : t.primary_key <;>
    simp [TableDiffer.dropped_primary_key, hpk]

lemma self_created_tables (A : SqlSchema) (fam : SqlFamily)
    (o : DiffingOptions) : (SqlSchemaDiffer.mk A A fam o).created_tables = [] := by
  simp only [SqlSchemaDiffer.created_tables]
  apply List.filter_eq_nil_iff.mpr
  intro t ht
  simp only [SqlSchemaDiffer.next_tables] at ht
  have h1 : t ∈ A.tables := (List.mem_filter.mp ht).1
  have h2 : A.has_table t.name = true :=
    List.any_eq_true.mpr ⟨t, h1, by simp⟩
  simp [h2]

lemma self_dropped_tables (A : SqlSchema) (fam : SqlFamily)
    (o : DiffingOptions) : (SqlSchemaDiffer.mk A A fam o).dropped_tables = [] := by
  simp only [SqlSchemaDiffer.dropped_tables]
  apply List.filter_eq_nil_iff.mpr
  intro t ht
  have h : (SqlSchemaDiffer.mk A A fam o).next_tables.any
      (fun nt => tables_match t nt) = true :=
    List.any_eq_true.mpr ⟨t, ht, tables_match_self t⟩
  simp [h]

lemma self_table_pairs (A : SqlSchema) (fam : SqlFamily) (o : DiffingOptions)
    (h : (A.tables.map Table.name).Nodup) :
    (SqlSchemaDiffer.mk A A fam o).table_pairs =
      A.tables.map (fun t => TableDiffer.mk o t t) := by
  simp only [SqlSchemaDiffer.table_pairs]
  apply filterMap_eq_map_of_some
  intro pt hpt
  have hf : A.tables.find? (fun nt => tables_match pt nt) = some pt := by
    apply find?_unique_mem hpt (tables_match_self pt)
    intro y hy hpy
    have hn : pt.name = y.name := by simpa [tables_match] using hpy
    exact List.inj_on_of_nodup_map h hy hpt hn.symm
  rw [hf]
  rfl

lemma self_created_enums (A : SqlSchema) (fam : SqlFamily)
    (o : DiffingOptions) : (SqlSchemaDiffer.mk A A fam o).created_enums = [] := by
  simp only [SqlSchemaDiffer.created_enums]
  apply List.filter_eq_nil_iff.mpr
  intro e he
  have h : (SqlSchemaDiffer.mk A A fam o).previous_enums.any
      (fun p => enums_match p e) = true :=
    List.any_eq_true.mpr ⟨e, he, enums_match_self e⟩
  simp [h]

lemma self_dropped_enums (A : SqlSchema) (fam : SqlFamily)
    (o : DiffingOptions) : (SqlSchemaDiffer.mk A A fam o).dropped_enums = [] := by
  simp only [SqlSchemaDiffer.dropped_enums]
  apply List.filter_eq_nil_iff.mpr
  intro e he
  have h : (SqlSchemaDiffer.mk A A fam o).next_enums.any
      (fun n => enums_match e n) = true :=
    List.any_eq_true.mpr ⟨e, he, enums_match_self e⟩
  simp [h]

lemma self_enum_pairs (A : SqlSchema) (fam : SqlFamily) (o : DiffingOptions)
    (h : (A.enums.map Enum.name).Nodup) :
    (SqlSchemaDiffer.mk A A fam o).enum_pairs =
      A.enums.map (fun e => (e, e)) := by
  simp only [SqlSchemaDiffer.enum_pairs]
  apply filterMap_eq_map_of_some
  intro pe hpe
  have hf : (SqlSchemaDiffer.mk A A fam o).next_enums.find?
      (fun n => enums_match pe n) = some pe := by
    apply find?_unique_mem hpe (enums_match_self pe)
    intro y hy hpy
    have hn : pe.name = y.name := by simpa [enums_match] using hpy
    exact List.inj_on_of_nodup_map h hy hpe hn.symm
  rw [hf]
  rfl

lemma created_values_self (e : Enum) : created_values e e = [] := by
  apply List.filter_eq_nil_iff.mpr
  intro v hv
  simpa using hv

lemma dropped_values_self (e : Enum) : dropped_values e e = [] := by
  apply List.filter_eq_nil_iff.mpr
  intro v hv
  simpa using hv

/-- C6: diffing a well-formed snapshot (unique table names, unique column
names within each table, unique enum names) against itself yields a
SchemaDiff in which every list is empty. -/
theorem C6_self_diff_empty (A : SqlSchema) (fam : SqlFamily)
    (options : DiffingOptions)
    (htables : (A.tables.map Table.name).Nodup)
    (hcols : ∀ t ∈ A.tables, (t.columns.map Column.name).Nodup)
    (henums : (A.enums.map Enum.name).Nodup) :
    SqlSchemaDiffer.diff A A fam options =
      SqlSchemaDiff.mk [] [] [] [] [] [] [] [] [] [] [] := by
  simp only [SqlSchemaDiffer.diff, SqlSchemaDiffer.diff_internal,
    SqlSchemaDiff.mk.injEq]
  have hpairs := self_table_pairs A fam options htables
  have hcreated := self_created_tables A fam options
  have hdropped := self_dropped_tables A fam options
  refine ⟨?_, ?_, ?_, ?_, ?_, ?_, ?_, ?_, ?_, ?_, ?_⟩
  · -- add_foreign_keys
    simp only [SqlSchemaDiffer.add_foreign_keys, hpairs, hcreated,
      push_foreign_keys_from_created_tables, push_created_foreign_keys,
      List.flatMap_nil, List.flatMap_map, List.nil_append]
    apply List.flatMap_eq_nil_iff.mpr
    intro t _
    simp [self_created_foreign_keys]
  · -- drop_foreign_keys
    simp only [SqlSchemaDiffer.drop_tables, SqlSchemaDiffer.drop_foreign_keys,
      hpairs, hdropped, List.flatMap_nil, List.nil_append, List.flatMap_map]
    apply List.flatMap_eq_nil_iff.mpr
    intro t _
    simp [self_dropped_foreign_keys]
  · -- drop_tables
    simp [SqlSchemaDiffer.drop_tables, hdropped]
  · -- create_tables
    simp [SqlSchemaDiffer.create_tables, hcreated]
  · -- alter_tables
    simp only [SqlSchemaDiffer.alter_tables, hpairs, List.filterMap_map]
    apply List.filterMap_eq_nil_iff.mpr
    intro t ht
    simp [SqlSchemaDiffer.table_changes, SqlSchemaDiffer.drop_primary_key,
      SqlSchemaDiffer.add_primary_key, SqlSchemaDiffer.drop_columns,
      SqlSchemaDiffer.add_columns, self_dropped_primary_key,
      self_created_primary_key, self_dropped_columns, self_added_columns,
      self_alter_columns options t (hcols t ht)]
  · -- create_indexes
    simp only [SqlSchemaDiffer.create_indexes, hpairs, hcreated,
      List.flatMap_nil, List.nil_append, List.flatMap_map]
    apply List.flatMap_eq_nil_iff.mpr
    intro t _
    simp [self_created_indexes]
  · -- drop_indexes
    simp only [SqlSchemaDiffer.drop_indexes, hpairs, List.flatMap_map]
    apply List.flatMap_eq_nil_iff.mpr
    intro t _
    simp [self_dropped_indexes]
  · -- alter_indexes
    simp only [SqlSchemaDiffer.alter_indexes, hpairs, List.flatMap_map]
    apply List.flatMap_eq_nil_iff.mpr
    intro t _
    simp [self_index_pairs]
  · -- create_enums
    simp [SqlSchemaDiffer.create_enums, self_created_enums]
  · -- drop_enums
    simp [SqlSchemaDiffer.drop_enums, self_dropped_enums]
  · -- alter_enums
    simp only [SqlSchemaDiffer.alter_enums, self_enum_pairs A fam options henums,
      List.filterMap_map]
    apply List.filterMap_eq_nil_iff.mpr
    intro e _
    simp [created_values_self, dropped_values_self, AlterEnum.is_empty]

def pk1 : PrimaryKey := ⟨["a"], some "pk"⟩

def enumE : Enum := ⟨"color", ["black", "white"]⟩

def tblZ : Table := ⟨"z", [colA, colB], [idxI], some pk1, [fkNamed]⟩

/-- A nontrivial well-formed sample schema: two tables, a primary key, an
index, a foreign key and an enum. -/
def schemaZ : SqlSchema := ⟨[tblZ, ⟨"u", [colA], [], none, []⟩], [enumE]⟩

/-- Witness for C6: the self-diff of `schemaZ` is empty. -/
theorem C6_witness :
    SqlSchemaDiffer.diff schemaZ schemaZ .postgres opts0 =
      SqlSchemaDiff.mk [] [] [] [] [] [] [] [] [] [] [] :=
  C6_self_diff_empty schemaZ .postgres opts0 (by decide) (by decide) (by decide)

/- C7: order and non-emptiness of the changes inside an AlterTable. -/

/-- The position of a table change's kind in the fixed order drop-primary-key,
drop-column, add-column, alter-column, add-primary-key. -/
def changeKind : TableChange → Nat
  | .DropPrimaryKey _ => 0
  | .DropColumn _ => 1
  | .AddColumn _ => 2
  | .AlterColumn _ _ => 3
  | .AddPrimaryKey _ => 4

lemma pairwise_key_of_const {α : Type} {key : α → Nat} {k : Nat} :
    ∀ {l : List α}, (∀ s ∈ l, key s = k) →
      l.Pairwise (fun a b => key a ≤ key b) := by
  intro l
  induction l with
  | nil => intro _; exact .nil
  | cons x xs ih =>
      intro h
      refine .cons (fun y hy => ?_) (ih fun s hs => h s (List.mem_cons_of_mem _ hs))
      rw [h x (List.mem_cons_self x xs), h y (List.mem_cons_of_mem _ hy)]

lemma chain_key_block {α : Type} {key : α → Nat} {k : Nat} {l₁ l₂ : List α}
    (h₁ : ∀ s ∈ l₁, key s = k)
    (hp : l₂.Pairwise (fun a b => key a ≤ key b))
    (hg : ∀ s ∈ l₂, k < key s) :
    (l₁ ++ l₂).Pairwise (fun a b => key a ≤ key b) ∧
      ∀ s ∈ l₁ ++ l₂, k ≤ key s := by
  constructor
  · refine List.pairwise_append.mpr ⟨pairwise_key_of_const h₁, hp, ?_⟩
    intro a ha b hb
    rw [h₁ a ha]
    exact Nat.le_of_lt (hg b hb)
  · intro s hs
    rcases List.mem_append.mp hs with h | h
    · exact Nat.le_of_eq (h₁ s h).symm
    · exact Nat.le_of_lt (hg s h)

lemma changeKind_drop_primary_key (tables : TableDiffer) :
    ∀ c ∈ (SqlSchemaDiffer.drop_primary_key tables).toList, changeKind c = 0 := by
  intro c hc
  cases h : tables.dropped_primary_key with
  | none => simp [SqlSchemaDiffer.drop_primary_key, h] at hc
  | some pk =>
      simp [SqlSchemaDiffer.drop_primary_key, h] at hc
      rw [hc]
      rfl

lemma changeKind_drop_columns (tables : TableDiffer) :
    ∀ c ∈ SqlSchemaDiffer.drop_columns tables, changeKind c = 1 := by
  intro c hc
  rcases List.mem_map.mp hc with ⟨x, _, rfl⟩
  rfl

lemma changeKind_add_columns (tables : TableDiffer) :
    ∀ c ∈ SqlSchemaDiffer.add_columns tables, changeKind c = 2 := by
  intro c hc
  rcases List.mem_map.mp hc with ⟨x, _, rfl⟩
  rfl

lemma changeKind_alter_columns (tables : TableDiffer) :
    ∀ c ∈ SqlSchemaDiffer.alter_columns tables, changeKind c = 3 := by
  intro c hc
  rcases List.mem_filterMap.mp hc with ⟨pn, _, hsome⟩
  by_cases hd : differs_in_something pn.1 pn.2 = true
  · rw [if_pos hd] at hsome
    cases hsome
    rfl
  · rw [if_neg hd] at hsome
    cases hsome

lemma changeKind_add_primary_key (tables : TableDiffer) :
    ∀ c ∈ (SqlSchemaDiffer.add_primary_key tables).toList, changeKind c = 4 := by
  intro c hc
  cases h : Option.filter (fun pk => !pk.columns.isEmpty) tables.created_primary_key with
  | none => simp [SqlSchemaDiffer.add_primary_key, h] at hc
  | some pk =>
      simp [SqlSchemaDiffer.add_primary_key, h] at hc
      rw [hc]
      rfl

lemma table_changes_pairwise (tables : TableDiffer) :
    (SqlSchemaDiffer.table_changes tables).Pairwise
      (fun a b => changeKind a ≤ changeKind b) := by
  unfold SqlSchemaDiffer.table_changes
  have c4 := chain_key_block (changeKind_add_primary_key tables)
    List.Pairwise.nil (by intro s hs; cases hs)
  rw [List.append_nil] at c4
  have c3 := chain_key_block (changeKind_alter_columns tables) c4.1
    (fun s hs => c4.2 s hs)
  have c2 := chain_key_block (changeKind_add_columns tables) c3.1
    (fun s hs => c3.2 s hs)
  have c1 := chain_key_block (changeKind_drop_columns tables) c2.1
    (fun s hs => c2.2 s hs)
  have c0 := chain_key_block (changeKind_drop_primary_key tables) c1.1
    (fun s hs => c1.2 s hs)
  simpa only [List.append_assoc] using c0.1

/-- C7: every AlterTable record emitted by the differ has a non-empty change
list, and its changes appear in the fixed order drop-primary-key, dropped
columns, added columns, altered columns, add-primary-key (change kinds are
nondecreasing along the list). -/
theorem C7_alter_table_change_order (previous next : SqlSchema)
    (fam : SqlFamily) (options : DiffingOptions) :
    ∀ a ∈ (SqlSchemaDiffer.diff previous next fam options).alter_tables,
      a.changes ≠ [] ∧
        a.changes.Pairwise (fun c₁ c₂ => changeKind c₁ ≤ changeKind c₂) := by
  intro a ha
  simp only [SqlSchemaDiffer.diff, SqlSchemaDiffer.diff_internal,
    SqlSchemaDiffer.alter_tables] at ha
  rcases List.mem_filterMap.mp ha with ⟨tables, _, hsome⟩
  by_cases hE : (SqlSchemaDiffer.table_changes tables).isEmpty = true
  · rw [if_pos hE] at hsome
    cases hsome
  · rw [if_neg hE] at hsome
    cases hsome
    constructor
    · intro hnil
      exact hE (List.isEmpty_iff.mpr hnil)
    · exact table_changes_pairwise tables

/-- Witness for C7: the diff of the two `_Migration` snapshots emits exactly
one AlterTable, with the single change AddColumn `b`. -/
theorem C7_witness :
    (AlterTable.mk ⟨"_Migration", [colA, colB], [], none, []⟩
        [TableChange.AddColumn colB]).changes ≠ [] ∧
      (AlterTable.mk ⟨"_Migration", [colA, colB], [], none, []⟩
        [TableChange.AddColumn colB]).changes.Pairwise
        (fun c₁ c₂ => changeKind c₁ ≤ changeKind c₂) :=
  C7_alter_table_change_order prevC2 nextC2 .postgres opts0
    (AlterTable.mk ⟨"_Migration", [colA, colB], [], none, []⟩
      [TableChange.AddColumn colB]) (by decide)

/- C8: AlterEnum emission for matched enum pairs. -/

lemma created_values_eq_nil_iff (p n : Enum) :
    created_values p n = [] ↔ ∀ v ∈ n.values, v ∈ p.values := by
  constructor
  · intro h v hv
    have := List.filter_eq_nil_iff.mp h v hv
    simpa using this
  · intro h
    apply List.filter_eq_nil_iff.mpr
    intro v hv
    simpa using h v hv

lemma dropped_values_eq_nil_iff (p n : Enum) :
    dropped_values p n = [] ↔ ∀ v ∈ p.values, v ∈ n.values := by
  constructor
  · intro h v hv
    have := List.filter_eq_nil_iff.mp h v hv
    simpa using this
  · intro h
    apply List.filter_eq_nil_iff.mpr
    intro v hv
    simpa using h v hv

/-- C8: (i) every emitted AlterEnum has a non-empty created or dropped list
and carries exactly the created/dropped variant lists of its enum pair;
(ii) the created/dropped lists are non-empty exactly when the variant sets
differ; (iii) for a matched pair whose variant sets differ the AlterEnum is
emitted; (iv) an enum present unchanged in both snapshots contributes no
CreateEnum, DropEnum or AlterEnum entry. -/
theorem C8_alter_enum_iff_variant_sets_differ (previous next : SqlSchema)
    (fam : SqlFamily) (options : DiffingOptions) :
    (∀ s ∈ (SqlSchemaDiffer.diff previous next fam options).alter_enums,
      ¬(s.created_variants = [] ∧ s.dropped_variants = []) ∧
      ∃ pr ∈ (SqlSchemaDiffer.mk previous next fam options).enum_pairs,
        s = ⟨pr.1.name, created_values pr.1 pr.2, dropped_values pr.1 pr.2⟩) ∧
    (∀ p n : Enum, (created_values p n ≠ [] ∨ dropped_values p n ≠ []) ↔
      ¬(∀ v, v ∈ p.values ↔ v ∈ n.values)) ∧
    (∀ pr ∈ (SqlSchemaDiffer.mk previous next fam options).enum_pairs,
      (created_values pr.1 pr.2 ≠ [] ∨ dropped_values pr.1 pr.2 ≠ []) →
      AlterEnum.mk pr.1.name (created_values pr.1 pr.2) (dropped_values pr.1 pr.2)
        ∈ (SqlSchemaDiffer.diff previous next fam options).alter_enums) ∧
    (∀ e : Enum, e ∈ previous.enums → e ∈ next.enums →
      (previous.enums.map Enum.name).Nodup → (next.enums.map Enum.name).Nodup →
      ((SqlSchemaDiffer.diff previous next fam options).create_enums.all
        (fun s => s.name != e.name)) = true ∧
      ((SqlSchemaDiffer.diff previous next fam options).drop_enums.all
        (fun s => s.name != e.name)) = true ∧
      ((SqlSchemaDiffer.diff previous next fam options).alter_enums.all
        (fun s => s.name != e.name)) = true) := by
  refine ⟨?_, ?_, ?_, ?_⟩
  · -- (i)
    intro s hs
    simp only [SqlSchemaDiffer.diff, SqlSchemaDiffer.diff_internal,
      SqlSchemaDiffer.alter_enums] at hs
    rcases List.mem_filterMap.mp hs with ⟨pr, hpr, hsome⟩
    by_cases hE : (AlterEnum.mk pr.1.name (created_values pr.1 pr.2)
        (dropped_values pr.1 pr.2)).is_empty = true
    · rw [if_pos hE] at hsome
      cases hsome
    · rw [if_neg hE] at hsome
      cases hsome
      refine ⟨?_, pr, hpr, rfl⟩
      rintro ⟨h1, h2⟩
      apply hE
      simp only at h1 h2
      simp [AlterEnum.is_empty, h1, h2]
  · -- (ii)
    intro p n
    constructor
    · rintro (hc | hd) hall
      · exact hc ((created_values_eq_nil_iff p n).mpr (fun v hv => (hall v).mpr hv))
      · exact hd ((dropped_values_eq_nil_iff p n).mpr (fun v hv => (hall v).mp hv))
    · intro hne
      by_contra hno
      push_neg at hno
      apply hne
      intro v
      constructor
      · intro hv
        exact (dropped_values_eq_nil_iff p n).mp hno.2 v hv
      · intro hv
        exact (created_values_eq_nil_iff p n).mp hno.1 v hv
  · -- (iii)
    intro pr hpr hne
    simp only [SqlSchemaDiffer.diff, SqlSchemaDiffer.diff_internal,
      SqlSchemaDiffer.alter_enums]
    refine List.mem_filterMap.mpr ⟨pr, hpr, ?_⟩
    have hE : (AlterEnum.mk pr.1.name (created_values pr.1 pr.2)
        (dropped_values pr.1 pr.2)).is_empty = false := by
      rcases hne with h | h
      · simp [AlterEnum.is_empty, List.isEmpty_iff, h]
      · simp [AlterEnum.is_empty, List.isEmpty_iff, h]
    rw [hE]
    rfl
  · -- (iv)
    intro e hep hen hpnd hnnd
    refine ⟨?_, ?_, ?_⟩
    · apply List.all_eq_true.mpr
      intro s hs
      simp only [SqlSchemaDiffer.diff, SqlSchemaDiffer.diff_internal,
        SqlSchemaDiffer.create_enums] at hs
      rcases List.mem_map.mp hs with ⟨en, hen2, rfl⟩
      simp only [SqlSchemaDiffer.created_enums] at hen2
      have hpred := (List.mem_filter.mp hen2).2
      have hmem := (List.mem_filter.mp hen2).1
      rw [bne_iff_ne]
      intro hname
      have hany : (SqlSchemaDiffer.mk previous next fam options).previous_enums.any
          (fun p => enums_match p en) = true := by
        refine List.any_eq_true.mpr ⟨e, hep, ?_⟩
        simpa [enums_match] using hname.symm
      rw [hany] at hpred
      simp at hpred
    · apply List.all_eq_true.mpr
      intro s hs
      simp only [SqlSchemaDiffer.diff, SqlSchemaDiffer.diff_internal,
        SqlSchemaDiffer.drop_enums] at hs
      rcases List.mem_map.mp hs with ⟨en, hen2, rfl⟩
      simp only [SqlSchemaDiffer.dropped_enums] at hen2
      have hpred := (List.mem_filter.mp hen2).2
      rw [bne_iff_ne]
      intro hname
      have hany : (SqlSchemaDiffer.mk previous next fam options).next_enums.any
          (fun n => enums_match en n) = true := by
        refine List.any_eq_true.mpr ⟨e, hen, ?_⟩
        simpa [enums_match] using hname
      rw [hany] at hpred
      simp at hpred
    · apply List.all_eq_true.mpr
      intro s hs
      simp only [SqlSchemaDiffer.diff, SqlSchemaDiffer.diff_internal,
        SqlSchemaDiffer.alter_enums] at hs
      rcases List.mem_filterMap.mp hs with ⟨pr, hpr, hsome⟩
      simp only [SqlSchemaDiffer.enum_pairs] at hpr
      rcases List.mem_filterMap.mp hpr with ⟨pe, hpe, hmapped⟩
      rcases Option.map_eq_some'.mp hmapped with ⟨ne, hfind, hpr_eq⟩
      by_cases hE : (AlterEnum.mk pr.1.name (created_values pr.1 pr.2)
          (dropped_values pr.1 pr.2)).is_empty = true
      · rw [if_pos hE] at hsome
        cases hsome
      · rw [if_neg hE] at hsome
        cases hsome
        rw [bne_iff_ne]
        intro hname
        apply hE
        rw [← hpr_eq] at hname ⊢
        simp only at hname
        have hpe_e : pe = e := List.inj_on_of_nodup_map hpnd hpe hep hname
        subst hpe_e
        have hfind_e : (SqlSchemaDiffer.mk previous next fam options).next_enums.find?
            (fun n => enums_match pe n) = some pe := by
          apply find?_unique_mem hen
          · simp [enums_match, hname]
          · intro y hy hpy
            have hyn : pe.name = y.name := by simpa [enums_match] using hpy
            have : y.name = pe.name := hyn.symm
            rw [hname] at this
            exact List.inj_on_of_nodup_map hnnd hy hen this
        rw [hfind_e] at hfind
        cases hfind
        simp [AlterEnum.is_empty, created_values_self, dropped_values_self]

def enumEb : Enum := ⟨"color", ["black"]⟩

def prevC8 : SqlSchema := ⟨[], [enumE]⟩

def nextC8 : SqlSchema := ⟨[], [enumEb]⟩

/-- Witness for C8: dropping the `white` variant emits exactly the
created/dropped lists, and an unchanged `color` enum contributes no enum
step at all. -/
theorem C8_witness :
    ¬((AlterEnum.mk "color" [] ["white"]).created_variants = [] ∧
      (AlterEnum.mk "color" [] ["white"]).dropped_variants = []) ∧
    AlterEnum.mk "color" (created_values enumE enumEb) (dropped_values enumE enumEb)
      ∈ (SqlSchemaDiffer.diff prevC8 nextC8 .postgres opts0).alter_enums ∧
    ((SqlSchemaDiffer.diff prevC8 prevC8 .postgres opts0).create_enums.all
      (fun s => s.name != enumE.name)) = true ∧
    ((SqlSchemaDiffer.diff prevC8 prevC8 .postgres opts0).drop_enums.all
      (fun s => s.name != enumE.name)) = true ∧
    ((SqlSchemaDiffer.diff prevC8 prevC8 .postgres opts0).alter_enums.all
      (fun s => s.name != enumE.name)) = true :=
  ⟨((C8_alter_enum_iff_variant_sets_differ prevC8 nextC8 .postgres opts0).1
      (AlterEnum.mk "color" [] ["white"]) (by decide)).1,
    (C8_alter_enum_iff_variant_sets_differ prevC8 nextC8 .postgres opts0).2.2.1
      (enumE, enumEb) (by decide) (Or.inr (by decide)),
    ((C8_alter_enum_iff_variant_sets_differ prevC8 prevC8 .postgres opts0).2.2.2
      enumE (by decide) (by decide) (by decide) (by decide)).1,
    ((C8_alter_enum_iff_variant_sets_differ prevC8 prevC8 .postgres opts0).2.2.2
      enumE (by decide) (by decide) (by decide) (by decide)).2.1,
    ((C8_alter_enum_iff_variant_sets_differ prevC8 prevC8 .postgres opts0).2.2.2
      enumE (by decide) (by decide) (by decide) (by decide)).2.2⟩

/- C9: MySQL-only suppression of DropIndex records. -/

lemma flatMap_congr_mem {α β : Type} {f g : α → List β} :
    ∀ {l : List α}, (∀ a ∈ l, f a = g a) → l.flatMap f = l.flatMap g := by
  intro l
  induction l with
  | nil => intro _; rfl
  | cons a l ih =>
      intro h
      simp only [List.flatMap_cons, h a (List.mem_cons_self a l)]
      rw [ih (fun b hb => h b (List.mem_cons_of_mem _ hb))]

lemma filterMap_if_eq_filter_map {α β : Type} (c : α → Bool) (g : α → β) :
    ∀ l : List α, (l.filterMap (fun a => if c a then none else some (g a))) =
      (l.filter (fun a => !(c a))).map g := by
  intro l
  induction l with
  | nil => rfl
  | cons a l ih =>
      by_cases hc : c a = true
      · simp [List.filterMap_cons, List.filter_cons, hc, ih]
      · simp [List.filterMap_cons, List.filter_cons, hc, ih]

/-- C9 amended: on non-MySQL families every dropped index of every matched
table pair yields a DropIndex record; on the MySQL family exactly those
dropped indexes survive that are not covered by a foreign key of the previous
table (whether or not that foreign key is itself dropped); coverage means
some foreign key of the table constrains exactly the index's column list. -/
theorem C9_mysql_drop_index_suppression (differ : SqlSchemaDiffer) :
    (differ.sql_family.is_mysql = false →
      differ.drop_indexes = differ.table_pairs.flatMap (fun tables =>
        tables.dropped_indexes.map
          (fun i => DropIndex.mk tables.previous.name i.name))) ∧
    (differ.sql_family.is_mysql = true →
      differ.drop_indexes = differ.table_pairs.flatMap (fun tables =>
        (tables.dropped_indexes.filter
          (fun i => !(index_covers_fk tables.previous i))).map
          (fun i => DropIndex.mk tables.previous.name i.name))) ∧
    (∀ t i, index_covers_fk t i = true ↔
      ∃ fk ∈ t.foreign_keys, fk.columns = i.columns) := by
  refine ⟨?_, ?_, ?_⟩
  · intro h
    unfold SqlSchemaDiffer.drop_indexes
    apply flatMap_congr_mem
    intro tables _
    apply filterMap_eq_map_of_some
    intro i _
    rw [h]
    simp
  · intro h
    unfold SqlSchemaDiffer.drop_indexes
    apply flatMap_congr_mem
    intro tables _
    simp only [h, Bool.true_and]
    exact filterMap_if_eq_filter_map _ _ _
  · intro t i
    simp [index_covers_fk, List.any_eq_true]

def tblP9 : Table := ⟨"t", [colA], [idxI], none, [fkNamed]⟩

def tblN9 : Table := ⟨"t", [colA], [], none, [fkNamed]⟩

def prevC9 : SqlSchema := ⟨[tblP9], []⟩

def nextC9 : SqlSchema := ⟨[tblN9], []⟩

/-- C9 counterexample: on MySQL, the dropped index `i` on `(a)` is suppressed
because the *persisting* foreign key `fk1` covers it, although no foreign key
is concurrently dropped (the drop_foreign_keys list is empty) — so
suppression is not tied to a concurrently dropped foreign key. -/
theorem C9_counterexample :
    ((SqlSchemaDiffer.mk prevC9 nextC9 .mysql optsMy).table_pairs.map
      (fun tables => tables.dropped_indexes.length)) = [1] ∧
    (SqlSchemaDiffer.diff prevC9 nextC9 .mysql optsMy).drop_indexes = [] ∧
    (SqlSchemaDiffer.diff prevC9 nextC9 .mysql optsMy).drop_foreign_keys = [] := by
  decide

/-- Witness for the amended C9: the covered dropped index is suppressed on
MySQL and emitted on Postgres. -/
theorem C9_witness :
    (SqlSchemaDiffer.mk prevC9 nextC9 .mysql optsMy).drop_indexes = [] ∧
    (SqlSchemaDiffer.mk prevC9 nextC9 .postgres opts0).drop_indexes =
      [DropIndex.mk "t" "i"] :=
  ⟨((C9_mysql_drop_index_suppression
        (SqlSchemaDiffer.mk prevC9 nextC9 .mysql optsMy)).2.1 rfl).trans (by decide),
    ((C9_mysql_drop_index_suppression
        (SqlSchemaDiffer.mk prevC9 nextC9 .postgres opts0)).1 rfl).trans (by decide)⟩

/- C10: foreign-key matching never compares referenced column names. -/

lemma zip_all_names_of_map_eq : ∀ (l₁ l₂ : List Column),
    l₁.map (fun c => (c.name, c.tpe.family)) =
      l₂.map (fun c => (c.name, c.tpe.family)) →
    ((l₁.zip l₂).all fun pn =>
      pn.1.name == pn.2.name && decide (pn.1.tpe.family = pn.2.tpe.family)) = true
  | [], _, _ => by simp
  | _ :: _, [], h => by simp at h
  | c :: l₁, d :: l₂, h => by
      simp only [List.map_cons, List.cons.injEq, Prod.mk.injEq] at h
      rcases h with ⟨⟨hn, hf⟩, ht⟩
      simp [zip_all_names_of_map_eq l₁ l₂ ht, hn, hf]

lemma forall₂_exists_left {α β : Type} {R : α → β → Prop} {l₁ : List α}
    {l₂ : List β} (h : List.Forall₂ R l₁ l₂) : ∀ b ∈ l₂, ∃ a ∈ l₁, R a b := by
  induction h with
  | nil => intro b hb; cases hb
  | cons hr _ ih =>
      intro b hb
      rcases List.mem_cons.mp hb with rfl | hb2
      · exact ⟨_, List.mem_cons_self _ _, hr⟩
      · rcases ih b hb2 with ⟨a, ha, hRa⟩
        exact ⟨a, List.mem_cons_of_mem _ ha, hRa⟩

lemma forall₂_exists_right {α β : Type} {R : α → β → Prop} {l₁ : List α}
    {l₂ : List β} (h : List.Forall₂ R l₁ l₂) : ∀ a ∈ l₁, ∃ b ∈ l₂, R a b := by
  induction h with
  | nil => intro a ha; cases ha
  | cons hr _ ih =>
      intro a ha
      rcases List.mem_cons.mp ha with rfl | ha2
      · exact ⟨_, List.mem_cons_self _ _, hr⟩
      · rcases ih a ha2 with ⟨b, hb, hRb⟩
        exact ⟨b, List.mem_cons_of_mem _ hb, hRb⟩

/-- C10: two foreign keys on a matched table pair are considered the same
whenever the referenced table name, the referenced-column count and the
constrained columns' names and type families (in order) agree — the
referenced columns' names are never consulted; consequently, when the foreign
keys of a table pair match pairwise, no created or dropped foreign keys (and
hence no AddForeignKey / DropForeignKey contribution from that pair) arise. -/
theorem C10_fk_match_ignores_referenced_column_names :
    (∀ (ptable ntable : Table) (previous next : ForeignKey),
      previous.referenced_table = next.referenced_table →
      previous.referenced_columns.length = next.referenced_columns.length →
      (constrained_columns ptable previous).map (fun c => (c.name, c.tpe.family)) =
        (constrained_columns ntable next).map (fun c => (c.name, c.tpe.family)) →
      foreign_keys_match ptable previous ntable next = true) ∧
    (∀ differ : TableDiffer,
      List.Forall₂ (fun pfk nfk =>
          foreign_keys_match differ.previous pfk differ.next nfk = true)
        differ.previous.foreign_keys differ.next.foreign_keys →
      differ.created_foreign_keys = [] ∧ differ.dropped_foreign_keys = []) := by
  constructor
  · intro ptable ntable previous next h1 h2 h3
    have hlen : (constrained_columns ptable previous).length =
        (constrained_columns ntable next).length := by
      have := congrArg List.length h3
      simpa using this
    simp only [foreign_keys_match, Bool.and_eq_true]
    refine ⟨⟨⟨?_, ?_⟩, ?_⟩, ?_⟩
    · exact beq_iff_eq.mpr h1
    · exact beq_iff_eq.mpr h2
    · exact beq_iff_eq.mpr hlen
    · exact zip_all_names_of_map_eq _ _ h3
  · intro differ hfa
    constructor
    · simp only [TableDiffer.created_foreign_keys]
      apply List.filter_eq_nil_iff.mpr
      intro nfk hn
      rcases forall₂_exists_left hfa nfk hn with ⟨pfk, hp, hR⟩
      have hany : differ.previous.foreign_keys.any
          (fun pfk => foreign_keys_match differ.previous pfk differ.next nfk)
            = true :=
        List.any_eq_true.mpr ⟨pfk, hp, hR⟩
      simp [hany]
    · simp only [TableDiffer.dropped_foreign_keys]
      apply List.filter_eq_nil_iff.mpr
      intro pfk hp
      rcases forall₂_exists_right hfa pfk hp with ⟨nfk, hn, hR⟩
      have hany : differ.next.foreign_keys.any
          (fun nfk => foreign_keys_match differ.previous pfk differ.next nfk)
            = true :=
        List.any_eq_true.mpr ⟨nfk, hn, hR⟩
      simp [hany]

/-- Previous-side foreign key pointing at `u(id1)`. -/
def fkPrev10 : ForeignKey := ⟨some "fk", ["a"], "u", ["id1"], .noAction⟩

/-- Next-side foreign key pointing at `u(id2)` — only the referenced column
name changed. -/
def fkNext10 : ForeignKey := ⟨some "fk", ["a"], "u", ["id2"], .noAction⟩

def tblP10 : Table := ⟨"t", [colA], [], none, [fkPrev10]⟩

def tblN10 : Table := ⟨"t", [colA], [], none, [fkNext10]⟩

/-- Witness for C10: swapping the referenced column `id1` for `id2` keeps the
foreign keys matched and produces no created or dropped foreign keys. -/
theorem C10_witness :
    foreign_keys_match tblP10 fkPrev10 tblN10 fkNext10 = true ∧
    (TableDiffer.mk opts0 tblP10 tblN10).created_foreign_keys = [] ∧
    (TableDiffer.mk opts0 tblP10 tblN10).dropped_foreign_keys = [] :=
  ⟨C10_fk_match_ignores_referenced_column_names.1 tblP10 tblN10 fkPrev10 fkNext10
      rfl rfl (by decide),
    (C10_fk_match_ignores_referenced_column_names.2
      (TableDiffer.mk opts0 tblP10 tblN10)
      (List.Forall₂.cons (by decide) List.Forall₂.nil)).1,
    (C10_fk_match_ignores_referenced_column_names.2
      (TableDiffer.mk opts0 tblP10 tblN10)
      (List.Forall₂.cons (by decide) List.Forall₂.nil)).2⟩
